import Mathlib

/-!
Verification of the price-bot repository (`src/bot.py`).

The development shallowly embeds the fetch/fallback/format pipeline of
`bot.py` into Lean:

* network responses are modelled as `Option String` (`none` = network
  error / timeout / non-2xx status raised by `raise_for_status`;
  `some body` = the response body text);
* Python floats are modelled as exact rationals (`ℚ`); all claims under
  test concern either structure or decimal values that are exact in both
  models;
* Python's `json.loads`, `int(...)`, `float(...)`, `str.strip`,
  `str.replace`, the `in` operator, subscripting, and `%`/f-string fixed
  formatting are modelled by executable Lean functions defined below,
  each with a comment stating the modelling decisions;
* exceptions are modelled by `Option`/`PyRes` values: the code under
  test catches every exception at tier boundaries, so only the
  distinction `ValueError` vs `TypeError` (which the inner
  `except ValueError` in `get_circ_supply` makes observable) is kept.

Deliberate approximations, none of which affect the claims:
* JSON numbers are exact rationals, not IEEE doubles;
* the `NaN`/`Infinity` literals accepted by Python's `json` module are
  rejected by the model parser (in the code both routes end in the same
  tier failure: `int(nan)` raises `ValueError` and the subsequent text
  parse fails, `int(inf)` raises `OverflowError` which the inner handler
  does not catch);
* `str.strip` strips the ASCII whitespace set (Python also strips some
  further Unicode whitespace);
* numeric string parsing accepts ASCII digits only.
-/

unseal Rat.mul Rat.add Rat.sub Rat.inv Rat.ofScientific

set_option maxHeartbeats 1600000
set_option maxRecDepth 8000

/-! ## Character and list utilities -/

/-- The opening curly brace character. -/
def lbraceCh : Char := Char.ofNat 123

/-- The closing curly brace character. -/
def rbraceCh : Char := Char.ofNat 125

/-- The backtick character. -/
def backtickCh : Char := Char.ofNat 96

/-- ASCII whitespace, as stripped by Python's `str.strip`. -/
def pyWsB (c : Char) : Bool :=
  c == ' ' || c == '\t' || c == '\n' || c == '\r' || c == '\x0b' || c == '\x0c'

/-- JSON insignificant whitespace (RFC 8259), as skipped by `json.loads`. -/
def jsonWsB (c : Char) : Bool :=
  c == ' ' || c == '\t' || c == '\n' || c == '\r'

/-- ASCII decimal digit test. -/
def isDigitB (c : Char) : Bool :=
  48 ≤ c.toNat && c.toNat ≤ 57

/-- Numeric value of an ASCII digit. -/
def digitVal (c : Char) : Nat := c.toNat - 48

/-- The characters of a string. -/
def strL (s : String) : List Char := s.data

/-- Model of Python `str.strip()` on a character list. -/
def pyStripL (l : List Char) : List Char :=
  ((l.dropWhile pyWsB).reverse.dropWhile pyWsB).reverse

/-- `leadsWith pat l` holds when `pat` is an initial segment of `l`. -/
def leadsWith : List Char → List Char → Bool
  | [], _ => true
  | _ :: _, [] => false
  | a :: as, b :: bs => a == b && leadsWith as bs

/-- `hasRun pat l`: `pat` occurs as a contiguous run inside `l`
(Python's `in` on strings). -/
def hasRun (pat : List Char) : List Char → Bool
  | [] => leadsWith pat []
  | l@(_ :: rest) => leadsWith pat l || hasRun pat rest

/-! ## Python numeric string conversions -/

/-- Accumulate decimal digits. -/
def natOfDigitsAux : List Char → Nat → Nat
  | [], acc => acc
  | c :: r, acc => natOfDigitsAux r (acc * 10 + digitVal c)

/-- Continue a digit run in the style of Python `int` literals: further
digits, with single underscores allowed between digits. -/
def pyDigitsRun : List Char → Nat → Option Nat
  | [], acc => some acc
  | c :: rest, acc =>
    if isDigitB c then pyDigitsRun rest (acc * 10 + digitVal c)
    else if c = '_' then
      match rest with
      | [] => none
      | d :: r2 =>
        if isDigitB d then pyDigitsRun r2 (acc * 10 + digitVal d) else none
    else none

/-- An unsigned run of digits in the style of Python `int(str)`:
at least one digit, single underscores allowed between digits. -/
def pyUIntDigits : List Char → Option Nat
  | [] => none
  | c :: r => if isDigitB c then pyDigitsRun r (digitVal c) else none

/-- Model of Python `int(s)` for a string argument: strip whitespace,
optional sign, then decimal digits with optional single underscores
between digits.  `none` models the `ValueError` raised otherwise. -/
def pyIntOfString (l : List Char) : Option Int :=
  match pyStripL l with
  | [] => none
  | c :: r =>
    if c = '+' then (pyUIntDigits r).map (fun n => (n : Int))
    else if c = '-' then (pyUIntDigits r).map (fun n => -(n : Int))
    else (pyUIntDigits (c :: r)).map (fun n => (n : Int))

/-- All-digit nonempty run (used for exponent parts). -/
def allDigits1 (l : List Char) : Option Nat :=
  match l with
  | [] => none
  | _ :: _ => if l.all isDigitB then some (natOfDigitsAux l 0) else none

/-- Optional exponent tail of a Python float literal: empty, or
`e`/`E`, an optional sign and a nonempty digit run, consuming the rest. -/
def pyExpTail (l : List Char) : Option Int :=
  match l with
  | [] => some 0
  | c :: r =>
    if c = 'e' ∨ c = 'E' then
      match r with
      | [] => none
      | d :: r2 =>
        if d = '+' then (allDigits1 r2).map (fun n => (n : Int))
        else if d = '-' then (allDigits1 r2).map (fun n => -(n : Int))
        else (allDigits1 (d :: r2)).map (fun n => (n : Int))
    else none

/-- Scale a rational by a (possibly negative) power of ten. -/
def scalePow10 (q : ℚ) (e : Int) : ℚ :=
  if 0 ≤ e then q * (10 : ℚ) ^ e.toNat else q / (10 : ℚ) ^ (-e).toNat

/-- Unsigned part of a Python float literal: `digits [. digits]`,
`. digits` or `digits .`, followed by an optional exponent tail. -/
def pyUFloat (l : List Char) : Option ℚ :=
  let p := l.span isDigitB
  match p.2 with
  | '.' :: r2 =>
    let p2 := r2.span isDigitB
    match p.1, p2.1 with
    | [], [] => none
    | _, _ =>
      (pyExpTail p2.2).map (fun e =>
        scalePow10 ((natOfDigitsAux p.1 0 : ℚ) +
          (natOfDigitsAux p2.1 0 : ℚ) / (10 : ℚ) ^ p2.1.length) e)
  | _ =>
    match p.1 with
    | [] => none
    | _ :: _ =>
      (pyExpTail p.2).map (fun e => scalePow10 (natOfDigitsAux p.1 0 : ℚ) e)

/-- Model of Python `float(s)` for a string argument: strip whitespace,
optional sign, then a float literal.  `none` models `ValueError`.
(`inf`/`nan` spellings and underscores in float literals are not
modelled; no claim depends on them.) -/
def pyFloatOfString (l : List Char) : Option ℚ :=
  match pyStripL l with
  | [] => none
  | c :: r =>
    if c = '+' then pyUFloat r
    else if c = '-' then (pyUFloat r).map (fun q => -q)
    else pyUFloat (c :: r)

/-! ## JSON values and a model of `json.loads` -/

/-- JSON values as produced by Python's `json.loads` (numbers kept as
exact rationals; strings and object keys as character lists). -/
inductive Json where
  | num (q : ℚ)
  | str (s : List Char)
  | bool (b : Bool)
  | null
  | arr (elems : List Json)
  | obj (fields : List (List Char × Json))

/-- Hexadecimal digit value, for `\u` escapes. -/
def hexVal (c : Char) : Option Nat :=
  if 48 ≤ c.toNat ∧ c.toNat ≤ 57 then some (c.toNat - 48)
  else if 97 ≤ c.toNat ∧ c.toNat ≤ 102 then some (c.toNat - 87)
  else if 65 ≤ c.toNat ∧ c.toNat ≤ 70 then some (c.toNat - 55)
  else none

/-- Prepend a character to the string component of a string-parse result. -/
def consFst (a : Char) : Option (List Char × List Char) → Option (List Char × List Char)
  | some p => some (a :: p.1, p.2)
  | none => none

/-- Body of a JSON string literal, after the opening quote: returns the
decoded characters and the input remaining after the closing quote.
Control characters are rejected; the standard escapes and single
`\uXXXX` escapes are decoded (surrogate-pair recombination is not
modelled; no claim depends on it). -/
def parseStrBody : List Char → Option (List Char × List Char)
  | [] => none
  | c :: rest =>
    if c = '"' then some ([], rest)
    else if c = '\\' then
      match rest with
      | [] => none
      | e :: r2 =>
        if e = '"' then consFst '"' (parseStrBody r2)
        else if e = '\\' then consFst '\\' (parseStrBody r2)
        else if e = '/' then consFst '/' (parseStrBody r2)
        else if e = 'b' then consFst '\x08' (parseStrBody r2)
        else if e = 'f' then consFst '\x0c' (parseStrBody r2)
        else if e = 'n' then consFst '\n' (parseStrBody r2)
        else if e = 'r' then consFst '\r' (parseStrBody r2)
        else if e = 't' then consFst '\t' (parseStrBody r2)
        else if e = 'u' then
          match r2 with
          | h1 :: h2 :: h3 :: h4 :: r6 =>
            match hexVal h1, hexVal h2, hexVal h3, hexVal h4 with
            | some v1, some v2, some v3, some v4 =>
              consFst (Char.ofNat (((v1 * 16 + v2) * 16 + v3) * 16 + v4)) (parseStrBody r6)
            | _, _, _, _ => none
          | _ => none
        else none
    else if c.toNat < 32 then none
    else consFst c (parseStrBody rest)

/-- JSON exponent part: either absent (exponent 0) or `e`/`E`, an
optional sign and a nonempty digit run; returns the exponent and the
remaining input. -/
def pyExpTail' (l : List Char) : Option (Int × List Char) :=
  match l with
  | [] => some (0, [])
  | c :: r =>
    if c = 'e' ∨ c = 'E' then
      match r with
      | [] => none
      | d :: r2 =>
        let digs : List Char × List Char :=
          if d = '+' ∨ d = '-' then r2.span isDigitB else (d :: r2).span isDigitB
        match digs.1 with
        | [] => none
        | _ :: _ =>
          if d = '-' then some (-(natOfDigitsAux digs.1 0 : Int), digs.2)
          else some ((natOfDigitsAux digs.1 0 : Int), digs.2)
    else some (0, l)

/-- A JSON number (RFC 8259 grammar): optional minus, integer part with
no leading zeros, optional fraction, optional exponent.  Returns the
value and the remaining input. -/
def parseNum (cs : List Char) : Option (ℚ × List Char) :=
  let go : List Char → Option (ℚ × List Char) := fun t =>
    match t with
    | [] => none
    | c :: r =>
      if ¬ isDigitB c then none
      else
        let ip : List Char × List Char :=
          if c = '0' then (['0'], r) else (c :: r).span isDigitB
        let fp : List Char × List Char :=
          match ip.2 with
          | '.' :: r2 => r2.span isDigitB
          | _ => ([], ip.2)
        match ip.2 with
        | '.' :: _ =>
          match fp.1 with
          | [] => none
          | _ :: _ =>
            (pyExpTail' fp.2).map (fun er =>
              (scalePow10 ((natOfDigitsAux ip.1 0 : ℚ) +
                (natOfDigitsAux fp.1 0 : ℚ) / (10 : ℚ) ^ fp.1.length) er.1, er.2))
        | _ =>
          (pyExpTail' ip.2).map (fun er =>
            (scalePow10 (natOfDigitsAux ip.1 0 : ℚ) er.1, er.2))
  match cs with
  | '-' :: r => (go r).map (fun p => (-p.1, p.2))
  | _ => go cs

mutual

/-- One JSON value (fuel-indexed; the fuel only bounds nesting depth,
and `parseJson` supplies more fuel than any input can consume). -/
def parseVal : Nat → List Char → Option (Json × List Char)
  | 0, _ => none
  | fuel + 1, cs =>
    match cs.dropWhile jsonWsB with
    | [] => none
    | c :: r =>
      if c = '"' then
        match parseStrBody r with
        | some p => some (Json.str p.1, p.2)
        | none => none
      else if c = 't' then
        match r with
        | 'r' :: 'u' :: 'e' :: r2 => some (Json.bool true, r2)
        | _ => none
      else if c = 'f' then
        match r with
        | 'a' :: 'l' :: 's' :: 'e' :: r2 => some (Json.bool false, r2)
        | _ => none
      else if c = 'n' then
        match r with
        | 'u' :: 'l' :: 'l' :: r2 => some (Json.null, r2)
        | _ => none
      else if c = '[' then
        match r.dropWhile jsonWsB with
        | ']' :: r2 => some (Json.arr [], r2)
        | _ =>
          match parseItems fuel r with
          | some p => some (Json.arr p.1, p.2)
          | none => none
      else if c = lbraceCh then
        match r.dropWhile jsonWsB with
        | d :: r2 =>
          if d = rbraceCh then some (Json.obj [], r2)
          else
            match parseFields fuel r with
            | some p => some (Json.obj p.1, p.2)
            | none => none
        | [] => none
      else if c = '-' ∨ isDigitB c then
        match parseNum (c :: r) with
        | some p => some (Json.num p.1, p.2)
        | none => none
      else none

/-- Nonempty comma-separated list of values, terminated by `]`. -/
def parseItems : Nat → List Char → Option (List Json × List Char)
  | 0, _ => none
  | fuel + 1, cs =>
    match parseVal fuel cs with
    | none => none
    | some (v, rest) =>
      match rest.dropWhile jsonWsB with
      | ',' :: r2 =>
        match parseItems fuel r2 with
        | some p => some (v :: p.1, p.2)
        | none => none
      | c :: r2 => if c = ']' then some ([v], r2) else none
      | [] => none

/-- Nonempty comma-separated list of `"key": value` pairs, terminated
by a closing brace. -/
def parseFields : Nat → List Char → Option (List (List Char × Json) × List Char)
  | 0, _ => none
  | fuel + 1, cs =>
    match cs.dropWhile jsonWsB with
    | c :: r =>
      if c = '"' then
        match parseStrBody r with
        | none => none
        | some (key, r2) =>
          match r2.dropWhile jsonWsB with
          | ':' :: r3 =>
            match parseVal fuel r3 with
            | none => none
            | some (v, rest) =>
              match rest.dropWhile jsonWsB with
              | ',' :: r4 =>
                match parseFields fuel r4 with
                | some p => some ((key, v) :: p.1, p.2)
                | none => none
              | d :: r4 => if d = rbraceCh then some ([(key, v)], r4) else none
              | [] => none
          | _ => none
      else none
    | [] => none

end

/-- Model of Python's `json.loads` applied to a whole body: parse one
value, allow trailing whitespace, reject anything else.  `none` models
the `ValueError` (`JSONDecodeError`) raised on invalid input. -/
def parseJson (s : String) : Option Json :=
  match parseVal (s.data.length + 1) s.data with
  | some (v, rest) => if rest.dropWhile jsonWsB = [] then some v else none
  | none => none

/-! ## Python conversions and container operations on JSON values -/

/-- Result of a Python operation that can raise: the inner handler in
`get_circ_supply` catches `ValueError` only, so the model keeps the
`ValueError`/`TypeError` distinction. -/
inductive PyRes (α : Type) where
  | ok (a : α)
  | valueErr
  | typeErr
deriving DecidableEq

/-- Truncation toward zero, as Python's `int()` applied to a float. -/
def truncQ (q : ℚ) : Int :=
  if 0 ≤ q then Int.fdiv q.num (q.den : Int) else -Int.fdiv (-q).num ((-q).den : Int)

/-- Model of Python `int(v)` on a decoded JSON value: numbers truncate
toward zero, strings parse as integer literals (`ValueError` otherwise),
booleans give 0/1 (`bool` is an `int` subclass), and `list`/`dict`/
`None` raise `TypeError`. -/
def pyIntOfJson : Json → PyRes Int
  | Json.num q => PyRes.ok (truncQ q)
  | Json.str s =>
    match pyIntOfString s with
    | some n => PyRes.ok n
    | none => PyRes.valueErr
  | Json.bool b => PyRes.ok (if b then 1 else 0)
  | Json.null => PyRes.typeErr
  | Json.arr _ => PyRes.typeErr
  | Json.obj _ => PyRes.typeErr

/-- Model of Python `float(v)` on a decoded JSON value (same shape as
`pyIntOfJson`, with float-literal parsing for strings). -/
def pyFloatOfJson : Json → PyRes ℚ
  | Json.num q => PyRes.ok q
  | Json.str s =>
    match pyFloatOfString s with
    | some q => PyRes.ok q
    | none => PyRes.valueErr
  | Json.bool b => PyRes.ok (if b then 1 else 0)
  | Json.null => PyRes.typeErr
  | Json.arr _ => PyRes.typeErr
  | Json.obj _ => PyRes.typeErr

/-- Model of Python's `key in v` for a string key: key membership for
`dict`, element equality for `list` (a string equals only an equal
string), substring test for `str`, `TypeError` (`none`) otherwise. -/
def pyIn (key : List Char) : Json → Option Bool
  | Json.obj kvs => some (kvs.any (fun kv => kv.1 == key))
  | Json.arr l =>
    some (l.any (fun v => match v with | Json.str s => s == key | _ => false))
  | Json.str s => some (hasRun key s)
  | _ => none

/-- Model of Python's `v[key]` for a string key: `dict` lookup with the
last binding of a duplicated key winning (as in `json.loads`); `none`
covers both `KeyError` and the `TypeError` of non-`dict` values, which
the code treats identically (the enclosing handler catches both). -/
def pySub (key : List Char) : Json → Option Json
  | Json.obj kvs =>
    match kvs.reverse.find? (fun kv => kv.1 == key) with
    | some kv => some kv.2
    | none => none
  | _ => none

/-! ## The bot's fetchers (`src/bot.py`) -/

/-- `MANUAL_CIRC_SUPPLY` (bot.py line 19). -/
def MANUAL_CIRC_SUPPLY : Int := 8000000000000

/-- `get_cg_supply` (bot.py lines 22-35).  The argument is the CoinGecko
markets response: `none` for a network error / bad status, `some body`
for a 2xx body.  Mirrors
`if data and isinstance(data, list) and "circulating_supply" in data[0]:
return int(data[0]["circulating_supply"])`, with every raised exception
caught and turned into `None`. -/
def get_cg_supply (resp : Option String) : Option Int :=
  match resp with
  | none => none
  | some body =>
    match parseJson body with
    | some (Json.arr (x :: _)) =>
      match pyIn (strL "circulating_supply") x with
      | some true =>
        match pySub (strL "circulating_supply") x with
        | some v =>
          match pyIntOfJson v with
          | PyRes.ok n => some n
          | _ => none
        | none => none
      | _ => none
    | _ => none

/-- The explorer tier body of `get_circ_supply` (bot.py lines 41-57):
`data = r.json(); return int(data)` with `except ValueError` falling
through to `return int(r.text.strip())`, all inside a tier-level
`except Exception`.  A `TypeError` from `int(data)` is not caught by
the inner handler, so it skips the text parse and fails the tier. -/
def explorerAttempt (body : String) : Option Int :=
  match parseJson body with
  | some data =>
    match pyIntOfJson data with
    | PyRes.ok n => some n
    | PyRes.valueErr => pyIntOfString (pyStripL body.data)
    | PyRes.typeErr => none
  | none => pyIntOfString (pyStripL body.data)

/-- `get_circ_supply` (bot.py lines 38-67): explorer tier, then
CoinGecko tier, then the manual constant.  The two arguments are the
explorer response and the CoinGecko markets response used by
`get_cg_supply`. -/
def get_circ_supply (explorer cgSupply : Option String) : Int :=
  match explorer.bind explorerAttempt with
  | some n => n
  | none =>
    match get_cg_supply cgSupply with
    | some n => n
    | none => MANUAL_CIRC_SUPPLY

/-- `get_mexc_price` (bot.py lines 70-82): mirrors
`if isinstance(data, dict) and "price" in data: return float(data["price"])`,
with every raised exception caught and turned into `None`. -/
def get_mexc_price (resp : Option String) : Option ℚ :=
  match resp with
  | none => none
  | some body =>
    match parseJson body with
    | some (Json.obj kvs) =>
      match pyIn (strL "price") (Json.obj kvs) with
      | some true =>
        match pySub (strL "price") (Json.obj kvs) with
        | some v =>
          match pyFloatOfJson v with
          | PyRes.ok q => some q
          | _ => none
        | none => none
      | _ => none
    | _ => none

/-- `get_cg_price` (bot.py lines 85-98): same shape as `get_cg_supply`
with the `current_price` field and `float(...)`. -/
def get_cg_price (resp : Option String) : Option ℚ :=
  match resp with
  | none => none
  | some body =>
    match parseJson body with
    | some (Json.arr (x :: _)) =>
      match pyIn (strL "current_price") x with
      | some true =>
        match pySub (strL "current_price") x with
        | some v =>
          match pyFloatOfJson v with
          | PyRes.ok q => some q
          | _ => none
        | none => none
      | _ => none
    | _ => none

/-! ## Markdown escaping (`escape_markdown_v2`, bot.py lines 101-106) -/

/-- The reserved characters of `escape_chars` in `escape_markdown_v2`,
in source order. -/
def escape_chars : List Char :=
  ['_', '*', '[', ']', '(', ')', '~', backtickCh, '>', '#', '+', '-', '=',
   '|', lbraceCh, rbraceCh, '.', '!']

/-- One pass of `text.replace(char, "\\" + char)` for a single-character
pattern. -/
def replaceChar (c : Char) : List Char → List Char
  | [] => []
  | a :: rest =>
    if a = c then '\\' :: c :: replaceChar c rest else a :: replaceChar c rest

/-- The loop body of `escape_markdown_v2`: one replacement pass per
reserved character, in source order. -/
def escapeList (l : List Char) : List Char :=
  escape_chars.foldl (fun t c => replaceChar c t) l

/-- `escape_markdown_v2` (bot.py lines 101-106). -/
def escape_markdown_v2 (text : String) : String :=
  ⟨escapeList text.data⟩

/-! ## Fixed-point formatting (Python `format` specs `.8f`, `,.2f`, `,.0f`, `.3f`) -/

/-- The decimal digit character for `d % 10`-style values. -/
def digitCharOf (d : Nat) : Char :=
  match d with
  | 0 => '0' | 1 => '1' | 2 => '2' | 3 => '3' | 4 => '4'
  | 5 => '5' | 6 => '6' | 7 => '7' | 8 => '8' | _ => '9'

/-- Decimal digits of `n`, most significant first (`fuel ≥` the number
of digits; callers pass `n + 1`). -/
def natDigitsAux : Nat → Nat → List Char
  | 0, _ => []
  | fuel + 1, n =>
    if n = 0 then [] else natDigitsAux fuel (n / 10) ++ [digitCharOf (n % 10)]

/-- Decimal rendering of a natural number. -/
def natToDecL (n : Nat) : List Char :=
  if n = 0 then ['0'] else natDigitsAux (n + 1) n

/-- Decimal rendering of an integer. -/
def intToDecL (n : Int) : List Char :=
  if n < 0 then '-' :: natToDecL (-n).toNat else natToDecL n.toNat

/-- Insert a comma after every third character of a reversed digit
string (helper for the `,` format flag). -/
def commaRev : List Char → List Char
  | a :: b :: c :: d :: rest => a :: b :: c :: ',' :: commaRev (d :: rest)
  | l => l

/-- Thousands separators, as the `,` flag of a Python format spec. -/
def addCommas (l : List Char) : List Char :=
  (commaRev l.reverse).reverse

/-- Floor of a rational, computed on the numerator/denominator pair. -/
def ratFloor (q : ℚ) : Int := Int.fdiv q.num (q.den : Int)

/-- Round to the nearest integer, ties to even — the rounding used by
Python's fixed-point float formatting. -/
def roundHalfEven (q : ℚ) : Int :=
  let f := ratFloor q
  let r := q - (f : ℚ)
  if r < 1 / 2 then f
  else if 1 / 2 < r then f + 1
  else if f % 2 = 0 then f else f + 1

/-- Left-pad with zeros to `k` characters. -/
def padZeros (k : Nat) (l : List Char) : List Char :=
  List.replicate (k - l.length) '0' ++ l

/-- Fixed-point format of a nonnegative rational with `prec` decimals
and optional thousands separators in the integer part. -/
def fmtFixedNN (q : ℚ) (prec : Nat) (comma : Bool) : List Char :=
  let scaled := (roundHalfEven (q * (10 : ℚ) ^ prec)).toNat
  let ip := scaled / 10 ^ prec
  let fp := scaled % 10 ^ prec
  let ipl := if comma then addCommas (natToDecL ip) else natToDecL ip
  if prec = 0 then ipl else ipl ++ '.' :: padZeros prec (natToDecL fp)

/-- Model of a Python fixed-point format spec (`.{prec}f`, with `comma`
for the `,` flag) applied to a rational value. -/
def fmtFixed (q : ℚ) (prec : Nat) (comma : Bool) : List Char :=
  if q < 0 then '-' :: fmtFixedNN (-q) prec comma else fmtFixedNN q prec comma

/-! ## The report formatter (`get_nexa_price`, bot.py lines 109-147) -/

/-- `market_cap = nexa_price * circ_supply` (bot.py line 124): the
market cap is always derived from the two fetched values, never
fetched on its own. -/
def marketCapOf (nexa_price : ℚ) (circ_supply : Int) : ℚ :=
  nexa_price * (circ_supply : ℚ)

/-- The rendered (pre-escaping) report message of `get_nexa_price`
(bot.py lines 124-145): the derived quantities and the two f-strings. -/
def renderMessageL (nexa_price : ℚ) (source : List Char) (circ_supply : Int) : List Char :=
  let market_cap := marketCapOf nexa_price circ_supply
  let circ_supply_trillions := (circ_supply : ℚ) / 1000000000000
  let market_cap_millions := market_cap / 1000000
  let price_per_million := nexa_price * 1000000
  let price_per_billion := nexa_price * 1000000000
  let market_cap_text :=
    strL "Market Cap: $" ++ fmtFixed market_cap_millions 2 true ++ strL "M\n" ++
    strL "Circ Supply: " ++ fmtFixed circ_supply_trillions 3 false ++ strL "T NEXA"
  strL "NEXA/USDT Price (" ++ source ++ strL ")\n\n" ++
  fmtFixed nexa_price 8 false ++ strL "$ per NEXA\n" ++
  fmtFixed price_per_million 2 true ++ strL "$ per 1M NEXA\n" ++
  fmtFixed price_per_billion 0 true ++ strL "$ per 1B NEXA\n\n" ++
  market_cap_text

/-- The error string returned when both price tiers fail
(bot.py line 121).  Note the code returns it without escaping. -/
def errorMessage : String := "🚨 Error: Unable to fetch price from MEXC or CoinGecko."

/-- The price-selection steps of `get_nexa_price` (bot.py lines
112-118): MEXC with label "MEXC", else CoinGecko with label
"CoinGecko", else `none`. -/
def priceSelection (mexc cgPrice : Option String) : Option (ℚ × List Char) :=
  match (get_mexc_price mexc).map (fun p => (p, strL "MEXC")) with
  | some ps => some ps
  | none => (get_cg_price cgPrice).map (fun p => (p, strL "CoinGecko"))

/-- `get_nexa_price` (bot.py lines 109-147).  The four arguments are
the upstream responses: MEXC ticker, CoinGecko markets (price call),
explorer coinsupply, CoinGecko markets (supply call). -/
def get_nexa_price (mexc cgPrice explorer cgSupply : Option String) : String :=
  match priceSelection mexc cgPrice with
  | none => errorMessage
  | some (p, src) =>
    ⟨escapeList (renderMessageL p src (get_circ_supply explorer cgSupply))⟩

/-! ## Module state threading

The module's global state consists of `MANUAL_CIRC_SUPPLY` (read by the
supply fetcher, never reassigned anywhere in the module) and the
logging destination (append-only).  `BotState` makes that state
explicit so that the claim about invocations not interacting through
hidden mutable state can be stated rather than assumed.  Log lines are
modelled as one marker string per fallback decision of the source
(interpolated payloads other than numbers are elided; no claim depends
on log text). -/

/-- The module-level mutable state of `bot.py`. -/
structure BotState where
  manual : Int
  logLines : List String

/-- `get_circ_supply` with the module state threaded explicitly: the
manual tier reads `st.manual`, and each fallback decision appends its
log line. -/
def get_circ_supply_st (explorer cgSupply : Option String) (st : BotState) : Int × BotState :=
  match explorer.bind explorerAttempt with
  | some n => (n, { st with logLines := st.logLines ++ ["Raw coinsupply response"] })
  | none =>
    match get_cg_supply cgSupply with
    | some n =>
      (n, { st with logLines := st.logLines ++
        ["Explorer supply error", "Using CoinGecko supply: " ++ ⟨intToDecL n⟩] })
    | none =>
      (st.manual, { st with logLines := st.logLines ++
        ["Explorer supply error",
         "Falling back to manual supply: " ++ ⟨intToDecL st.manual⟩] })

/-- `get_nexa_price` with the module state threaded explicitly. -/
def get_nexa_price_st (mexc cgPrice explorer cgSupply : Option String)
    (st : BotState) : String × BotState :=
  match (get_mexc_price mexc).map (fun p => (p, strL "MEXC")) with
  | some (p, src) =>
    let r := get_circ_supply_st explorer cgSupply st
    (⟨escapeList (renderMessageL p src r.1)⟩, r.2)
  | none =>
    let st1 := { st with logLines := st.logLines ++ ["Falling back to CoinGecko for price"] }
    match (get_cg_price cgPrice).map (fun p => (p, strL "CoinGecko")) with
    | some (p, src) =>
      let r := get_circ_supply_st explorer cgSupply st1
      (⟨escapeList (renderMessageL p src r.1)⟩, r.2)
    | none => (errorMessage, st1)

/-! ## Spec-side definitions used for refinement comparison -/

/-- Modelled from the spec (§4.1 step 1): "Attempt to interpret the
response body first as a JSON-encoded number, then — if that fails — as
a plain-text integer after trimming whitespace."  This is the reading
of the explorer tier that the claim under test asserts; it is compared
against `explorerAttempt`, the tier as implemented. -/
def explorerSpecTier (body : String) : Option Int :=
  match parseJson body with
  | some (Json.num q) => some (truncQ q)
  | _ => pyIntOfString (pyStripL (strL body))

/-- The `int(json.loads(body))` attempt of the explorer tier on its
own: `some` exactly when JSON decoding succeeds and `int()` does not
raise. -/
def jsonIntAttempt (body : String) : Option Int :=
  match parseJson body with
  | some j =>
    match pyIntOfJson j with
    | PyRes.ok n => some n
    | _ => none
  | none => none

/-! ## Escape analysis -/

/-- Concatenation of a character-wise expansion (`str.replace` passes
compose into such an expansion). -/
def expand (f : Char → List Char) : List Char → List Char
  | [] => []
  | a :: rest => f a ++ expand f rest

/-- One-character escaping with respect to a set `S` of reserved
characters: a reserved character becomes backslash-then-itself, any
other character is unmodified. -/
def escInto (S : List Char) (a : Char) : List Char :=
  if a ∈ S then ['\\', a] else [a]

/-- The number of reserved characters in a list. -/
def countReserved : List Char → Nat
  | [] => 0
  | a :: rest => (if a ∈ escape_chars then 1 else 0) + countReserved rest

/-- Scan checking that every reserved character is preceded by exactly
one backslash; the accumulator counts the backslashes immediately
preceding the current position. -/
def checkEscAux : Nat → List Char → Bool
  | _, [] => true
  | k, c :: rest =>
    if c = '\\' then checkEscAux (k + 1) rest
    else if c ∈ escape_chars then k == 1 && checkEscAux 0 rest
    else checkEscAux 0 rest

/-- Every reserved character of `l` is preceded by exactly one
backslash. -/
def checkEsc (l : List Char) : Bool := checkEscAux 0 l

/-! ## Lemmas: the replacement loop is a single character-wise expansion -/

theorem replaceChar_append (c : Char) (x y : List Char) :
    replaceChar c (x ++ y) = replaceChar c x ++ replaceChar c y := by
  induction x with
  | nil => rfl
  | cons a rest ih =>
    simp only [List.cons_append, replaceChar]
    by_cases h : a = c <;> simp [h, ih]

theorem replaceChar_expand (c : Char) (f : Char → List Char) (l : List Char) :
    replaceChar c (expand f l) = expand (fun a => replaceChar c (f a)) l := by
  induction l with
  | nil => rfl
  | cons a rest ih => simp only [expand, replaceChar_append, ih]

theorem replaceChar_escInto (c : Char) (S : List Char) (a : Char)
    (hbs : c ≠ '\\') (hS : c ∉ S) :
    replaceChar c (escInto S a) = escInto (S ++ [c]) a := by
  by_cases h : a ∈ S
  · have hac : a ≠ c := fun e => hS (e ▸ h)
    simp [escInto, h, replaceChar, Ne.symm hbs, hac, List.mem_append]
  · by_cases hc : a = c
    · subst hc
      simp [escInto, h, replaceChar, List.mem_append]
    · simp [escInto, h, replaceChar, hc, List.mem_append]

theorem expand_congr (f g : Char → List Char) (l : List Char)
    (h : ∀ a, f a = g a) : expand f l = expand g l := by
  induction l with
  | nil => rfl
  | cons a rest ih => simp only [expand, h, ih]

theorem foldl_replace_expand (cs : List Char) :
    ∀ (S l : List Char), '\\' ∉ cs → (∀ x ∈ cs, x ∉ S) → cs.Nodup →
    List.foldl (fun t c => replaceChar c t) (expand (escInto S) l) cs =
      expand (escInto (S ++ cs)) l := by
  induction cs with
  | nil => intro S l _ _ _; simp
  | cons c cs ih =>
    intro S l hbs hdisj hnd
    have hc_bs : c ≠ '\\' := by
      intro h
      exact hbs (h ▸ List.mem_cons_self c cs)
    have hc_S : c ∉ S := hdisj c (List.mem_cons_self c cs)
    have step : replaceChar c (expand (escInto S) l) = expand (escInto (S ++ [c])) l := by
      rw [replaceChar_expand]
      exact expand_congr _ _ l (fun a => replaceChar_escInto c S a hc_bs hc_S)
    have hnd' := (List.nodup_cons.mp hnd)
    have hdisj' : ∀ x ∈ cs, x ∉ S ++ [c] := by
      intro x hx
      simp only [List.mem_append, List.mem_singleton]
      rintro (h | h)
      · exact hdisj x (List.mem_cons_of_mem c hx) h
      · exact hnd'.1 (h ▸ hx)
    have hbs' : '\\' ∉ cs := fun h => hbs (List.mem_cons_of_mem c h)
    calc List.foldl (fun t c => replaceChar c t) (expand (escInto S) l) (c :: cs)
        = List.foldl (fun t c => replaceChar c t) (expand (escInto (S ++ [c])) l) cs := by
          simp only [List.foldl_cons, step]
      _ = expand (escInto ((S ++ [c]) ++ cs)) l := ih (S ++ [c]) l hbs' hdisj' hnd'.2
      _ = expand (escInto (S ++ c :: cs)) l := by rw [List.append_assoc]; rfl

theorem expand_escInto_nil (l : List Char) : expand (escInto []) l = l := by
  induction l with
  | nil => rfl
  | cons a rest ih => simp [expand, escInto, ih]

/-- The 18 replacement passes of `escape_markdown_v2` amount to one
character-wise escaping pass: the inserted backslashes are never
reserved, and the reserved characters are pairwise distinct, so no pass
rewrites the output of an earlier one. -/
theorem escapeList_eq_expand (l : List Char) :
    escapeList l = expand (escInto escape_chars) l := by
  have h := foldl_replace_expand escape_chars [] l (by decide)
    (by intro x _ h; exact absurd h (List.not_mem_nil x)) (by decide)
  rw [expand_escInto_nil] at h
  simpa [escapeList] using h

theorem checkEsc_expand (l : List Char) (h : '\\' ∉ l) :
    checkEscAux 0 (expand (escInto escape_chars) l) = true := by
  induction l with
  | nil => rfl
  | cons a rest ih =>
    have ha : a ≠ '\\' := fun e => h (e ▸ List.mem_cons_self a rest)
    have hrest : '\\' ∉ rest := fun e => h (List.mem_cons_of_mem a e)
    by_cases hm : a ∈ escape_chars
    · have habs : a ≠ '\\' := ha
      simp only [expand, escInto, hm, if_pos, List.cons_append, List.nil_append]
      show checkEscAux 0 ('\\' :: a :: expand (escInto escape_chars) rest) = true
      simp only [checkEscAux, if_pos rfl]
      simp [checkEscAux, habs, hm, ih hrest]
    · simp only [expand, escInto, hm, if_neg, List.cons_append, List.nil_append]
      show checkEscAux 0 (a :: expand (escInto escape_chars) rest) = true
      simp [checkEscAux, ha, hm, ih hrest]

theorem length_expand_escInto (l : List Char) :
    (expand (escInto escape_chars) l).length = l.length + countReserved l := by
  induction l with
  | nil => rfl
  | cons a rest ih =>
    by_cases hm : a ∈ escape_chars <;>
      simp [expand, escInto, hm, countReserved, ih] <;> omega

theorem mem_expand_escInto (S : List Char) (l : List Char) (a : Char)
    (h : a ∈ l) : a ∈ expand (escInto S) l := by
  induction l with
  | nil => cases h
  | cons b rest ih =>
    rcases List.mem_cons.mp h with h | h
    · subst h
      by_cases hm : a ∈ S <;> simp [expand, escInto, hm]
    · exact List.mem_append_right _ (ih h)

theorem countReserved_pos (l : List Char) (c : Char)
    (hc : c ∈ l) (hm : c ∈ escape_chars) : 1 ≤ countReserved l := by
  induction l with
  | nil => cases hc
  | cons b rest ih =>
    rcases List.mem_cons.mp hc with h | h
    · subst h
      simp [countReserved, hm]
    · have := ih h
      simp only [countReserved]
      omega

/-! ## Lemmas: the rendered message contains no backslash -/

theorem digitCharOf_ne_bs (d : Nat) : digitCharOf d ≠ '\\' := by
  unfold digitCharOf
  split <;> decide

theorem bs_not_mem_natDigitsAux (fuel : Nat) :
    ∀ n, '\\' ∉ natDigitsAux fuel n := by
  induction fuel with
  | zero => intro n; simp [natDigitsAux]
  | succ fuel ih =>
    intro n
    unfold natDigitsAux
    by_cases h : n = 0
    · simp [h]
    · rw [if_neg h]
      intro hc
      rcases List.mem_append.mp hc with hc | hc
      · exact ih _ hc
      · exact digitCharOf_ne_bs _ (List.mem_singleton.mp hc).symm

theorem bs_not_mem_natToDecL (n : Nat) : '\\' ∉ natToDecL n := by
  unfold natToDecL
  by_cases h : n = 0
  · simp [h]
  · rw [if_neg h]
    exact bs_not_mem_natDigitsAux (n + 1) n

theorem mem_commaRev (l : List Char) (x : Char) (h : x ∈ commaRev l) :
    x ∈ l ∨ x = ',' := by
  induction l using commaRev.induct with
  | case1 a b c d rest ih =>
    simp only [commaRev, List.mem_cons] at h
    rcases h with h | h | h | h | h
    · exact Or.inl (by simp [h])
    · exact Or.inl (by simp [h])
    · exact Or.inl (by simp [h])
    · exact Or.inr h
    · rcases ih h with h | h
      · exact Or.inl (by simp [List.mem_cons] at h ⊢; tauto)
      · exact Or.inr h
  | case2 l h1 =>
    exact Or.inl (by simpa [commaRev, h1] using h)

theorem bs_not_mem_addCommas (l : List Char) (h : '\\' ∉ l) :
    '\\' ∉ addCommas l := by
  unfold addCommas
  intro hc
  rw [List.mem_reverse] at hc
  rcases mem_commaRev _ _ hc with hc | hc
  · exact h (List.mem_reverse.mp hc)
  · cases hc

theorem bs_not_mem_padZeros (k : Nat) (l : List Char) (h : '\\' ∉ l) :
    '\\' ∉ padZeros k l := by
  unfold padZeros
  simp only [List.mem_append, List.mem_replicate]
  rintro (hc | hc)
  · exact absurd hc.2 (by decide)
  · exact h hc

theorem bs_not_mem_iplPart (n : Nat) (comma : Bool) :
    '\\' ∉ (if comma = true then addCommas (natToDecL n) else natToDecL n) := by
  split
  · exact bs_not_mem_addCommas _ (bs_not_mem_natToDecL _)
  · exact bs_not_mem_natToDecL _

theorem bs_not_mem_fmtFixedNN (q : ℚ) (prec : Nat) (comma : Bool) :
    '\\' ∉ fmtFixedNN q prec comma := by
  unfold fmtFixedNN
  dsimp only
  by_cases hp : prec = 0
  · rw [if_pos hp]
    exact bs_not_mem_iplPart _ comma
  · rw [if_neg hp]
    intro hc
    rcases List.mem_append.mp hc with hc | hc
    · exact bs_not_mem_iplPart _ comma hc
    · rcases List.mem_cons.mp hc with hc | hc
      · cases hc
      · exact bs_not_mem_padZeros _ _ (bs_not_mem_natToDecL _) hc

theorem bs_not_mem_fmtFixed (q : ℚ) (prec : Nat) (comma : Bool) :
    '\\' ∉ fmtFixed q prec comma := by
  unfold fmtFixed
  split
  · intro hc
    rcases List.mem_cons.mp hc with hc | hc
    · cases hc
    · exact bs_not_mem_fmtFixedNN _ _ _ hc
  · exact bs_not_mem_fmtFixedNN _ _ _

theorem bs_not_mem_renderMessageL (p : ℚ) (src : List Char) (c : Int)
    (hsrc : '\\' ∉ src) : '\\' ∉ renderMessageL p src c := by
  unfold renderMessageL
  dsimp only
  intro hc
  simp only [List.append_assoc, List.mem_append] at hc
  rcases hc with h | h | h | h | h | h | h | h | h | h | h | h | h | h | h
  all_goals first
    | exact hsrc h
    | exact bs_not_mem_fmtFixed _ _ _ h
    | exact absurd h (by decide)

/-! ## Lemmas: head shape of parsed JSON values, and the text parse -/

theorem jsonWs_imp_pyWs (a : Char) (h : jsonWsB a = true) : pyWsB a = true := by
  simp only [jsonWsB, Bool.or_eq_true] at h
  simp only [pyWsB, Bool.or_eq_true]
  tauto

theorem dropWhile_py_of_json (l : List Char) :
    ∀ c r, l.dropWhile jsonWsB = c :: r → pyWsB c = false →
    l.dropWhile pyWsB = c :: r := by
  induction l with
  | nil => intro c r h _; cases h
  | cons a t ih =>
    intro c r h hc
    by_cases ha : jsonWsB a = true
    · rw [List.dropWhile_cons_of_pos ha] at h
      rw [List.dropWhile_cons_of_pos (jsonWs_imp_pyWs a ha)]
      exact ih c r h hc
    · rw [List.dropWhile_cons_of_neg ha] at h
      cases h
      rw [List.dropWhile_cons_of_neg (by simp [hc])]

theorem dropWhile_append_single (l : List Char) (c : Char) (hc : pyWsB c = false) :
    ∃ t, (l ++ [c]).dropWhile pyWsB = t ++ [c] := by
  induction l with
  | nil =>
    refine ⟨[], ?_⟩
    have hn : ¬ pyWsB c = true := by simp [hc]
    simp [List.dropWhile_cons_of_neg hn]
  | cons a t ih =>
    by_cases ha : pyWsB a = true
    · rw [List.cons_append, List.dropWhile_cons_of_pos ha]
      exact ih
    · refine ⟨a :: t, ?_⟩
      rw [List.cons_append, List.dropWhile_cons_of_neg (by simp_all)]

theorem pyStrip_head (l : List Char) (c : Char) (r : List Char)
    (h1 : l.dropWhile jsonWsB = c :: r) (h2 : pyWsB c = false) :
    ∃ r2, pyStripL l = c :: r2 := by
  unfold pyStripL
  rw [dropWhile_py_of_json l c r h1 h2, List.reverse_cons]
  obtain ⟨t, ht⟩ := dropWhile_append_single r.reverse c h2
  rw [ht, List.reverse_append]
  exact ⟨t.reverse, rfl⟩

theorem pyIntOfString_cons_none (c : Char) (r : List Char)
    (h1 : pyWsB c = false) (h2 : isDigitB c = false)
    (h3 : c ≠ '+') (h4 : c ≠ '-') : pyIntOfString (c :: r) = none := by
  obtain ⟨r2, hstrip⟩ :=
    pyStrip_head (c :: r) c r (List.dropWhile_cons_of_neg (by
      intro hj
      exact absurd (jsonWs_imp_pyWs c hj) (by simp [h1]))) h1
  simp only [pyIntOfString, hstrip]
  rw [if_neg h3, if_neg h4]
  simp [pyUIntDigits, h2]

theorem pyIntOfString_strip_none (l : List Char) (c : Char) (r : List Char)
    (h : l.dropWhile jsonWsB = c :: r)
    (h1 : pyWsB c = false) (h2 : isDigitB c = false)
    (h3 : c ≠ '+') (h4 : c ≠ '-') : pyIntOfString (pyStripL l) = none := by
  obtain ⟨r2, hstrip⟩ := pyStrip_head l c r h h1
  rw [hstrip]
  exact pyIntOfString_cons_none c r2 h1 h2 h3 h4

/-- If `parseVal` produces an array, object or `null`, the first
significant character of the input is `[`, the opening brace, or `n`:
each dispatch branch of the parser is committed to one constructor. -/
theorem parseVal_shape (fuel : Nat) (cs : List Char) (v : Json) (rest : List Char)
    (h : parseVal fuel cs = some (v, rest))
    (hv : v = Json.null ∨ (∃ es, v = Json.arr es) ∨ (∃ kvs, v = Json.obj kvs)) :
    ∃ c r, cs.dropWhile jsonWsB = c :: r ∧ (c = 'n' ∨ c = '[' ∨ c = lbraceCh) := by
  match fuel with
  | 0 => simp [parseVal] at h
  | fuel + 1 =>
    unfold parseVal at h
    rcases hdrop : cs.dropWhile jsonWsB with _ | ⟨c, r⟩ <;> rw [hdrop] at h
    · cases h
    · refine ⟨c, r, rfl, ?_⟩
      rcases hv with rfl | ⟨es, rfl⟩ | ⟨kvs, rfl⟩ <;>
        (repeat' split at h) <;> simp_all

theorem pyIntOfJson_typeErr_shape (v : Json) (h : pyIntOfJson v = PyRes.typeErr) :
    v = Json.null ∨ (∃ es, v = Json.arr es) ∨ (∃ kvs, v = Json.obj kvs) := by
  cases v with
  | num q => simp [pyIntOfJson] at h
  | str s =>
    exfalso
    unfold pyIntOfJson at h
    rcases h2 : pyIntOfString s with _ | n <;> simp [h2] at h
  | bool b => simp [pyIntOfJson] at h
  | null => exact Or.inl rfl
  | arr es => exact Or.inr (Or.inl ⟨es, rfl⟩)
  | obj kvs => exact Or.inr (Or.inr ⟨kvs, rfl⟩)

/-- When the explorer body decodes to a JSON `list`, `dict` or `null`
(the cases where `int(data)` raises `TypeError` and the code skips the
plain-text parse), the plain-text parse would have failed anyway: such
a body starts with `[`, the opening brace, or `n`. -/
theorem text_parse_none_of_typeErr (body : String) (v : Json)
    (hp : parseJson body = some v) (ht : pyIntOfJson v = PyRes.typeErr) :
    pyIntOfString (pyStripL body.data) = none := by
  unfold parseJson at hp
  rcases hpv : parseVal (body.data.length + 1) body.data with _ | ⟨v2, rest⟩ <;>
    rw [hpv] at hp
  · cases hp
  · dsimp only at hp
    have hv2 : v2 = v := by
      by_cases hrest : rest.dropWhile jsonWsB = []
      · rw [if_pos hrest] at hp
        exact (Option.some.injEq _ _).mp hp
      · rw [if_neg hrest] at hp
        cases hp
    subst hv2
    obtain ⟨c, r, hdrop, hc⟩ :=
      parseVal_shape _ _ _ _ hpv (pyIntOfJson_typeErr_shape v2 ht)
    rcases hc with rfl | rfl | rfl <;>
      exact pyIntOfString_strip_none body.data _ r hdrop
        (by decide) (by decide) (by decide) (by decide)

/-! ## Helper lemmas about the fetch pipeline -/

theorem priceSelection_src (m c : Option String) (p : ℚ) (src : List Char)
    (h : priceSelection m c = some (p, src)) :
    src = strL "MEXC" ∨ src = strL "CoinGecko" := by
  unfold priceSelection at h
  rcases hm : get_mexc_price m with _ | q <;> simp [hm] at h
  · rcases hc : get_cg_price c with _ | q <;> simp [hc] at h
    exact Or.inr h.2.symm
  · exact Or.inl h.2.symm

theorem get_nexa_price_success (m c e s : Option String) (p : ℚ) (src : List Char)
    (h : priceSelection m c = some (p, src)) :
    get_nexa_price m c e s =
      ⟨escapeList (renderMessageL p src (get_circ_supply e s))⟩ := by
  unfold get_nexa_price
  rw [h]

theorem pySub_some_pyIn (key : List Char) (kvs : List (List Char × Json)) (v : Json)
    (h : pySub key (Json.obj kvs) = some v) :
    pyIn key (Json.obj kvs) = some true := by
  unfold pySub at h
  dsimp only at h
  rcases hf : kvs.reverse.find? (fun kv => kv.1 == key) with _ | kv <;> rw [hf] at h
  · cases h
  · have hmem : kv ∈ kvs := List.mem_reverse.mp (List.mem_of_find?_eq_some hf)
    have hpred := List.find?_some hf
    unfold pyIn
    dsimp only
    have hany : kvs.any (fun kv => kv.1 == key) = true :=
      List.any_eq_true.mpr ⟨kv, hmem, hpred⟩
    rw [hany]

theorem truncQ_nonneg (q : ℚ) (h : 0 ≤ q) : truncQ q = ⌊q⌋ := by
  unfold truncQ
  rw [if_pos h, Int.fdiv_eq_ediv _ (by positivity), Rat.floor_def]

theorem truncQ_nonpos (q : ℚ) (h : q ≤ 0) : truncQ q = ⌈q⌉ := by
  by_cases h0 : 0 ≤ q
  · have hq : q = 0 := le_antisymm h h0
    subst hq
    rw [truncQ_nonneg 0 le_rfl]
    simp
  · unfold truncQ
    rw [if_neg h0, Int.fdiv_eq_ediv _ (by positivity), ← Rat.floor_def,
      ← Int.ceil_neg, neg_neg]

/-! ## Helper lemmas about the threaded module state -/

theorem get_circ_supply_st_manual (e s : Option String) (st : BotState) :
    (get_circ_supply_st e s st).2.manual = st.manual := by
  unfold get_circ_supply_st
  repeat' split
  all_goals rfl

theorem get_circ_supply_st_fst (e s : Option String) (st st' : BotState)
    (h : st.manual = st'.manual) :
    (get_circ_supply_st e s st).1 = (get_circ_supply_st e s st').1 := by
  unfold get_circ_supply_st
  repeat' split
  all_goals simp [h]

theorem get_nexa_price_st_manual (m c e s : Option String) (st : BotState) :
    (get_nexa_price_st m c e s st).2.manual = st.manual := by
  unfold get_nexa_price_st
  repeat' split
  all_goals simp [get_circ_supply_st_manual]

theorem get_nexa_price_st_fst (m c e s : Option String) (st st' : BotState)
    (h : st.manual = st'.manual) :
    (get_nexa_price_st m c e s st).1 = (get_nexa_price_st m c e s st').1 := by
  unfold get_nexa_price_st
  rcases hm : (get_mexc_price m).map (fun p => (p, strL "MEXC")) with _ | ⟨p, src⟩
  · simp only [hm]
    rcases hc : (get_cg_price c).map (fun p => (p, strL "CoinGecko")) with _ | ⟨p, src⟩
    · simp only [hc]
    · simp only [hc]
      have hx :
          (get_circ_supply_st e s
            { st with logLines := st.logLines ++ ["Falling back to CoinGecko for price"] }).1 =
          (get_circ_supply_st e s
            { st' with logLines := st'.logLines ++ ["Falling back to CoinGecko for price"] }).1 :=
        get_circ_supply_st_fst e s _ _ h
      rw [hx]
  · simp only [hm]
    rw [get_circ_supply_st_fst e s st st' h]

/-! ## Claim theorems -/

/-- C1: for every combination of tier outcomes, `get_circ_supply`
returns the explorer value when the explorer tier succeeds, the
CoinGecko `circulating_supply` value when the explorer tier fails and
CoinGecko succeeds, and `MANUAL_CIRC_SUPPLY` when both fail.  It is a
total function into `Int`: it never returns a failure signal, and in
the model every exception of the source is a caught branch, so none
escapes. -/
theorem supply_fetcher_tiers :
    (∀ (s : Option String) (body : String) (n : Int),
      explorerAttempt body = some n → get_circ_supply (some body) s = n) ∧
    (∀ (e s : Option String) (n : Int),
      e.bind explorerAttempt = none → get_cg_supply s = some n →
      get_circ_supply e s = n) ∧
    (∀ e s : Option String,
      e.bind explorerAttempt = none → get_cg_supply s = none →
      get_circ_supply e s = MANUAL_CIRC_SUPPLY) := by
  refine ⟨?_, ?_, ?_⟩
  · intro s body n h
    simp [get_circ_supply, h]
  · intro e s n h1 h2
    simp [get_circ_supply, h1, h2]
  · intro e s h1 h2
    simp [get_circ_supply, h1, h2]

/-- Witness for C1: each tier exercised at a concrete input. -/
theorem supply_fetcher_tiers_witness :
    get_circ_supply (some "8000000000001") none = 8000000000001 ∧
    get_circ_supply none (some "[\x7b\"circulating_supply\": 7\x7d]") = 7 ∧
    get_circ_supply none none = MANUAL_CIRC_SUPPLY :=
  ⟨supply_fetcher_tiers.1 none "8000000000001" 8000000000001 (by decide),
   supply_fetcher_tiers.2.1 none (some "[\x7b\"circulating_supply\": 7\x7d]") 7
     (by decide) (by decide),
   supply_fetcher_tiers.2.2 none none (by decide) (by decide)⟩

/-- C2: the price path of `get_nexa_price` uses the MEXC price with
source label "MEXC" when MEXC succeeds, the CoinGecko `current_price`
with label "CoinGecko" when MEXC fails and CoinGecko succeeds, and when
both fail it produces the explicit failure indicator `none` (both
fetchers are total functions into `Option ℚ` — no exception), which the
formatter detects and answers with the error message. -/
theorem price_fetcher_tiers :
    (∀ (m c : Option String) (p : ℚ), get_mexc_price m = some p →
      priceSelection m c = some (p, strL "MEXC")) ∧
    (∀ (m c : Option String) (p : ℚ), get_mexc_price m = none →
      get_cg_price c = some p → priceSelection m c = some (p, strL "CoinGecko")) ∧
    (∀ m c : Option String, get_mexc_price m = none → get_cg_price c = none →
      priceSelection m c = none) ∧
    (∀ m c e s : Option String, priceSelection m c = none →
      get_nexa_price m c e s = errorMessage) := by
  refine ⟨?_, ?_, ?_, ?_⟩
  · intro m c p h
    simp [priceSelection, h]
  · intro m c p h1 h2
    simp [priceSelection, h1, h2]
  · intro m c h1 h2
    simp [priceSelection, h1, h2]
  · intro m c e s h
    simp [get_nexa_price, h]

/-- Witness for C2: each tier exercised at a concrete input. -/
theorem price_fetcher_tiers_witness :
    priceSelection (some "\x7b\"price\": \"0.00012345\"\x7d") none =
      some (12345 / 100000000, strL "MEXC") ∧
    priceSelection none (some "[\x7b\"current_price\": 0.0001\x7d]") =
      some (1 / 10000, strL "CoinGecko") ∧
    priceSelection none none = none ∧
    get_nexa_price none none none none = errorMessage :=
  ⟨price_fetcher_tiers.1 (some "\x7b\"price\": \"0.00012345\"\x7d") none
     (12345 / 100000000) (by decide),
   price_fetcher_tiers.2.1 none (some "[\x7b\"current_price\": 0.0001\x7d]")
     (1 / 10000) (by decide) (by decide),
   price_fetcher_tiers.2.2.1 none none (by decide) (by decide),
   price_fetcher_tiers.2.2.2 none none none none (by decide)⟩

/-- C4: when both price tiers fail, `get_nexa_price` returns the error
string: it begins with the error marker, contains no market-cap or
supply content, and the supply arguments are never consulted (the
output is the same for any supply responses — the supply fetch is not
reached). -/
theorem error_path_no_supply (m c e s e' s' : Option String)
    (hm : get_mexc_price m = none) (hc : get_cg_price c = none) :
    get_nexa_price m c e s = errorMessage ∧
    leadsWith (strL "🚨") (strL (get_nexa_price m c e s)) = true ∧
    hasRun (strL "Market Cap") (strL (get_nexa_price m c e s)) = false ∧
    hasRun (strL "Circ Supply") (strL (get_nexa_price m c e s)) = false ∧
    get_nexa_price m c e s = get_nexa_price m c e' s' := by
  have hsel : priceSelection m c = none := by simp [priceSelection, hm, hc]
  have h1 : get_nexa_price m c e s = errorMessage := by simp [get_nexa_price, hsel]
  have h2 : get_nexa_price m c e' s' = errorMessage := by simp [get_nexa_price, hsel]
  refine ⟨h1, ?_, ?_, ?_, h1.trans h2.symm⟩ <;> rw [h1] <;> decide

/-- Witness for C4: both price responses failing, two different supply
responses. -/
theorem error_path_no_supply_witness :
    get_nexa_price none none none none = errorMessage ∧
    leadsWith (strL "🚨") (strL (get_nexa_price none none none none)) = true ∧
    hasRun (strL "Market Cap") (strL (get_nexa_price none none none none)) = false ∧
    hasRun (strL "Circ Supply") (strL (get_nexa_price none none none none)) = false ∧
    get_nexa_price none none none none =
      get_nexa_price none none (some "8000000000000") none :=
  error_path_no_supply none none none none (some "8000000000000") none rfl rfl

theorem data_mk (l : List Char) : (⟨l⟩ : String).data = l := rfl

theorem strL_mk (l : List Char) : strL ⟨l⟩ = l := rfl

/-- C3 counterexample: the claim quantifies over every string returned
by `get_nexa_price`, but the error path (bot.py line 121) returns its
string without escaping: its final '.' — a reserved character — is not
preceded by a backslash, so the returned string fails the
exactly-one-backslash property. -/
theorem error_path_unescaped :
    get_nexa_price none none none none = errorMessage ∧
    checkEsc (strL (get_nexa_price none none none none)) = false := by
  constructor
  · rfl
  · decide

/-- C3 (amended): for every *success report* returned by
`get_nexa_price`, escaping has been applied exactly once to the final
rendered string: the output is the character-wise expansion of the
backslash-free rendered message in which each reserved character is
replaced by backslash-then-itself and every other character is kept
unmodified, and in the output every reserved character is preceded by
exactly one backslash.  (The error string is returned unescaped.) -/
theorem report_escaped_once (m c e s : Option String) (p : ℚ) (src : List Char)
    (h : priceSelection m c = some (p, src)) :
    strL (get_nexa_price m c e s) =
      expand (escInto escape_chars) (renderMessageL p src (get_circ_supply e s)) ∧
    '\\' ∉ renderMessageL p src (get_circ_supply e s) ∧
    checkEsc (strL (get_nexa_price m c e s)) = true := by
  have hd := get_nexa_price_success m c e s p src h
  have hd2 : strL (get_nexa_price m c e s) =
      escapeList (renderMessageL p src (get_circ_supply e s)) := by
    rw [hd, strL_mk]
  have hsrc : '\\' ∉ src := by
    rcases priceSelection_src m c p src h with rfl | rfl <;> decide
  have hmsg := bs_not_mem_renderMessageL p src (get_circ_supply e s) hsrc
  refine ⟨?_, hmsg, ?_⟩
  · rw [hd2, escapeList_eq_expand]
  · rw [hd2]
    unfold checkEsc
    rw [escapeList_eq_expand]
    exact checkEsc_expand _ hmsg

/-- Witness for C3 (amended): a concrete successful report. -/
theorem report_escaped_once_witness :
    checkEsc (strL (get_nexa_price (some "\x7b\"price\": \"0.00012345\"\x7d") none
      (some "8000000000000") none)) = true :=
  (report_escaped_once (some "\x7b\"price\": \"0.00012345\"\x7d") none
    (some "8000000000000") none (12345 / 100000000) (strL "MEXC") (by decide)).2.2

/-- C5 counterexample: on the explorer body "true", the claimed
behaviour (JSON-number parse, else plain-text integer parse, else next
tier) yields no value, but the code returns 1: `json.loads` produces
`True` and Python's `int(True)` is `1` because `bool` subclasses
`int`. -/
theorem explorer_json_bool_counterexample :
    explorerAttempt "true" = some 1 ∧ explorerSpecTier "true" = none := by
  constructor <;> decide

/-- C5 (amended): the explorer tier first applies `int()` to the
JSON-parse of the body — which succeeds not only on JSON numbers
(truncating) but also on JSON booleans (0/1) and JSON strings whose
content is an integer literal — and otherwise falls back to the
plain-text integer parse of the stripped body; when `int()` raises
`TypeError` (JSON list/object/null) the code skips the text parse, but
on such bodies the text parse returns no value anyway, so the tier
result is always `int`-of-JSON orElse text-parse. -/
theorem explorer_parse_order (body : String) :
    explorerAttempt body =
      (jsonIntAttempt body <|> pyIntOfString (pyStripL (strL body))) := by
  unfold explorerAttempt jsonIntAttempt strL
  rcases hp : parseJson body with _ | j <;> simp only [hp]
  · simp
  · rcases hj : pyIntOfJson j with n | _ | _ <;> simp only [hj]
    · simp
    · simp
    · rw [text_parse_none_of_typeErr body j hp hj]
      simp

theorem escape_markdown_v2_data (s : String) :
    (escape_markdown_v2 s).data = escapeList s.data := by
  unfold escape_markdown_v2
  rw [data_mk]

/-- C7: the escaping function is not idempotent — for every string
containing a reserved character, applying it twice double-escapes and
differs from applying it once — and the program applies it exactly
once, to the complete rendered message, at the end of the success
path (extensionally: the successful output is exactly one application
of `escape_markdown_v2` to the whole rendered message). -/
theorem escape_once_not_idempotent :
    (∀ s : String, (∃ ch, ch ∈ strL s ∧ ch ∈ escape_chars) →
      escape_markdown_v2 (escape_markdown_v2 s) ≠ escape_markdown_v2 s) ∧
    (∀ (m c e s : Option String) (p : ℚ) (src : List Char),
      priceSelection m c = some (p, src) →
      get_nexa_price m c e s =
        escape_markdown_v2 ⟨renderMessageL p src (get_circ_supply e s)⟩) := by
  constructor
  · rintro s ⟨ch, hch, hres⟩ heq
    have hdata := congrArg String.data heq
    simp only [escape_markdown_v2_data] at hdata
    have hlen := congrArg List.length hdata
    rw [escapeList_eq_expand (escapeList s.data), length_expand_escInto] at hlen
    have hmem : ch ∈ escapeList s.data := by
      rw [escapeList_eq_expand]
      exact mem_expand_escInto _ _ _ hch
    have hpos := countReserved_pos _ ch hmem hres
    omega
  · intro m c e s p src h
    rw [get_nexa_price_success m c e s p src h]
    apply String.ext
    rw [escape_markdown_v2_data]

/-- Witness for C7: double escaping "_" differs from single escaping,
and a concrete successful report is one escaping pass over its rendered
message. -/
theorem escape_once_not_idempotent_witness :
    escape_markdown_v2 (escape_markdown_v2 "_") ≠ escape_markdown_v2 "_" ∧
    get_nexa_price (some "\x7b\"price\": \"0.00012345\"\x7d") none none none =
      escape_markdown_v2
        ⟨renderMessageL (12345 / 100000000) (strL "MEXC") (get_circ_supply none none)⟩ :=
  ⟨escape_once_not_idempotent.1 "_" ⟨'_', by decide, by decide⟩,
   escape_once_not_idempotent.2 (some "\x7b\"price\": \"0.00012345\"\x7d") none none none
     (12345 / 100000000) (strL "MEXC") (by decide)⟩

/-- C6 counterexample: at price 0.00012345 and supply 8·10^12 the
market cap the program computes (`price × circulatingSupply`, bot.py
line 124) is 987,600,000 — one thousand times the "approximately
987,600.00" the claim states (the claim's figure is the market cap in
thousands, or equivalently 987.60 million, not the market cap). -/
theorem market_cap_value_counterexample :
    marketCapOf (12345 / 100000000) 8000000000000 = 987600000 ∧
    (987600000 : ℚ) = 1000 * 987600 := by
  constructor
  · decide
  · norm_num

/-- C6 (amended): at price 0.00012345 and supply 8,000,000,000,000 the
market cap is 987,600,000 (displayed as 987.60 million); the rendered
(pre-escaping) report is exactly the expected string and contains the
price to 8 decimals, price-per-million to 2 decimals, price-per-billion
with thousands separator and 0 decimals, market cap in millions to 2
decimals, and supply in trillions to 3 decimals. -/
theorem example_report_values :
    renderMessageL (12345 / 100000000) (strL "MEXC") 8000000000000 =
      strL "NEXA/USDT Price (MEXC)\n\n0.00012345$ per NEXA\n123.45$ per 1M NEXA\n123,450$ per 1B NEXA\n\nMarket Cap: $987.60M\nCirc Supply: 8.000T NEXA" ∧
    hasRun (strL "0.00012345") (renderMessageL (12345 / 100000000) (strL "MEXC") 8000000000000) = true ∧
    hasRun (strL "123.45") (renderMessageL (12345 / 100000000) (strL "MEXC") 8000000000000) = true ∧
    hasRun (strL "123,450") (renderMessageL (12345 / 100000000) (strL "MEXC") 8000000000000) = true ∧
    hasRun (strL "987.60") (renderMessageL (12345 / 100000000) (strL "MEXC") 8000000000000) = true ∧
    hasRun (strL "8.000") (renderMessageL (12345 / 100000000) (strL "MEXC") 8000000000000) = true ∧
    marketCapOf (12345 / 100000000) 8000000000000 = 987600000 := by
  refine ⟨?_, ?_, ?_, ?_, ?_, ?_, ?_⟩ <;> decide

/-- C8: with the module's mutable state (the manual supply constant and
the append-only log) threaded explicitly, invoking the full report
generation twice in sequence with the same upstream responses yields
byte-identical output strings: the first invocation only appends log
lines and never writes the state the formatting reads. -/
theorem report_generation_deterministic (m c e s : Option String) (st : BotState) :
    (get_nexa_price_st m c e s ((get_nexa_price_st m c e s st).2)).1 =
      (get_nexa_price_st m c e s st).1 :=
  get_nexa_price_st_fst m c e s _ st (get_nexa_price_st_manual m c e s st)

theorem cg_supply_none_of_pyIn_fail (body : String) (x : Json) (rest : List Json)
    (hp : parseJson body = some (Json.arr (x :: rest)))
    (hin : pyIn (strL "circulating_supply") x ≠ some true) :
    get_cg_supply (some body) = none := by
  unfold get_cg_supply
  simp only [hp]

theorem cg_price_none_of_pyIn_fail (body : String) (x : Json) (rest : List Json)
    (hp : parseJson body = some (Json.arr (x :: rest)))
    (hin : pyIn (strL "current_price") x ≠ some true) :
    get_cg_price (some body) = none := by
  unfold get_cg_price
  simp only [hp]

/-- C9: in `get_cg_supply` and `get_cg_price` the access to the first
list element is guarded — a success implies the decoded body was a
nonempty JSON list whose head passed the field-membership test — and
every unguarded shape (network failure, undecodable body, non-list,
empty list, or first element failing the membership test) yields `none`
(the next fallback tier) rather than an exception. -/
theorem cg_first_element_guarded :
    (get_cg_supply none = none ∧ get_cg_price none = none) ∧
    (∀ (body : String) (n : Int), get_cg_supply (some body) = some n →
      ∃ x rest, parseJson body = some (Json.arr (x :: rest)) ∧
        pyIn (strL "circulating_supply") x = some true) ∧
    (∀ (body : String) (q : ℚ), get_cg_price (some body) = some q →
      ∃ x rest, parseJson body = some (Json.arr (x :: rest)) ∧
        pyIn (strL "current_price") x = some true) ∧
    (∀ body : String, parseJson body = none →
      get_cg_supply (some body) = none ∧ get_cg_price (some body) = none) ∧
    (∀ (body : String) (j : Json), parseJson body = some j →
      (match j with | Json.arr (_ :: _) => False | _ => True) →
      get_cg_supply (some body) = none ∧ get_cg_price (some body) = none) ∧
    (∀ (body : String) (x : Json) (rest : List Json),
      parseJson body = some (Json.arr (x :: rest)) →
      pyIn (strL "circulating_supply") x ≠ some true →
      get_cg_supply (some body) = none) ∧
    (∀ (body : String) (x : Json) (rest : List Json),
      parseJson body = some (Json.arr (x :: rest)) →
      pyIn (strL "current_price") x ≠ some true →
      get_cg_price (some body) = none) := by
  refine ⟨⟨rfl, rfl⟩, ?_, ?_, ?_, ?_, ?_, ?_⟩
  · intro body n h
    unfold get_cg_supply at h
    rcases hp : parseJson body with _ | j <;> simp only [hp] at h
    · cases h
    · rcases j with q | s | b | _ | es | kvs
      all_goals try cases h
      rcases es with _ | ⟨x, rest⟩
      · cases h
      · dsimp only at h
        rcases hin : pyIn (strL "circulating_supply") x with _ | b <;>
          simp only [hin] at h
        · cases h
        · rcases b with _ | _
          · cases h
          · exact ⟨x, rest, rfl, hin⟩
  · intro body q h
    unfold get_cg_price at h
    rcases hp : parseJson body with _ | j <;> simp only [hp] at h
    · cases h
    · rcases j with q' | s | b | _ | es | kvs
      all_goals try cases h
      rcases es with _ | ⟨x, rest⟩
      · cases h
      · dsimp only at h
        rcases hin : pyIn (strL "current_price") x with _ | b <;>
          simp only [hin] at h
        · cases h
        · rcases b with _ | _
          · cases h
          · exact ⟨x, rest, rfl, hin⟩
  · intro body hp
    constructor <;> simp [get_cg_supply, get_cg_price, hp]
  · intro body j hp hshape
    have hs : get_cg_supply (some body) = none := by
      unfold get_cg_supply
      simp only [hp]
      rcases j with q | s | b | _ | es | kvs
      case arr =>
        rcases es with _ | ⟨x, rest⟩
        · rfl
        · dsimp only at hshape
      all_goals rfl
    have hc : get_cg_price (some body) = none := by
      unfold get_cg_price
      simp only [hp]
      rcases j with q | s | b | _ | es | kvs
      case arr =>
        rcases es with _ | ⟨x, rest⟩
        · rfl
        · dsimp only at hshape
      all_goals rfl
    exact ⟨hs, hc⟩
  · exact cg_supply_none_of_pyIn_fail
  · exact cg_price_none_of_pyIn_fail

/-- Witness for C9: the guard shapes exercised at concrete inputs. -/
theorem cg_first_element_guarded_witness :
    (∃ x rest, parseJson "[\x7b\"circulating_supply\": 5\x7d]" = some (Json.arr (x :: rest)) ∧
      pyIn (strL "circulating_supply") x = some true) ∧
    (get_cg_supply (some "not json") = none ∧ get_cg_price (some "not json") = none) ∧
    (get_cg_supply (some "\x7b\"circulating_supply\": 5\x7d") = none ∧
      get_cg_price (some "\x7b\"circulating_supply\": 5\x7d") = none) ∧
    (get_cg_supply (some "[]") = none ∧ get_cg_price (some "[]") = none) ∧
    get_cg_supply (some "[\x7b\"other\": 5\x7d]") = none :=
  ⟨cg_first_element_guarded.2.1 "[\x7b\"circulating_supply\": 5\x7d]" 5 (by decide),
   cg_first_element_guarded.2.2.2.1 "not json" (by rfl),
   cg_first_element_guarded.2.2.2.2.1 "\x7b\"circulating_supply\": 5\x7d"
     (Json.obj [(strL "circulating_supply", Json.num 5)]) (by rfl) (by trivial),
   cg_first_element_guarded.2.2.2.2.1 "[]" (Json.arr []) (by rfl) (by trivial),
   cg_first_element_guarded.2.2.2.2.2.1 "[\x7b\"other\": 5\x7d]"
     (Json.obj [(strL "other", Json.num 5)]) [] (by rfl) (by decide)⟩

/-- C10: a fractional upstream supply value is truncated toward zero by
`int()`: a CoinGecko `circulating_supply` field holding a number `q`
yields `truncQ q`, an explorer body that is a JSON number `q` yields
`truncQ q`, and `truncQ` is truncation toward zero (floor on
nonnegative values, ceiling on nonpositive ones), so the reported
supply is an integer even when the source reports a fraction. -/
theorem supply_truncated_toward_zero :
    (∀ (body : String) (kvs : List (List Char × Json)) (rest : List Json) (q : ℚ),
      parseJson body = some (Json.arr (Json.obj kvs :: rest)) →
      pySub (strL "circulating_supply") (Json.obj kvs) = some (Json.num q) →
      get_cg_supply (some body) = some (truncQ q)) ∧
    (∀ (body : String) (q : ℚ), parseJson body = some (Json.num q) →
      explorerAttempt body = some (truncQ q)) ∧
    (∀ q : ℚ, 0 ≤ q → truncQ q = ⌊q⌋) ∧
    (∀ q : ℚ, q ≤ 0 → truncQ q = ⌈q⌉) := by
  refine ⟨?_, ?_, truncQ_nonneg, truncQ_nonpos⟩
  · intro body kvs rest q hp hsub
    unfold get_cg_supply
    simp only [hp]
    rw [pySub_some_pyIn _ _ _ hsub]
    simp only [hsub]
    rfl
  · intro body q hp
    unfold explorerAttempt
    simp only [hp]
    rfl

/-- Witness for C10: a fractional CoinGecko supply (123.9 → 123), a
fractional negative explorer body (-123.9 → -123), and the
floor/ceiling characterizations at those points. -/
theorem supply_truncated_toward_zero_witness :
    get_cg_supply (some "[\x7b\"circulating_supply\": 123.9\x7d]") = some (truncQ (1239 / 10)) ∧
    explorerAttempt "-123.9" = some (truncQ (-1239 / 10)) ∧
    truncQ (1239 / 10) = ⌊(1239 / 10 : ℚ)⌋ ∧
    truncQ (-1239 / 10) = ⌈(-1239 / 10 : ℚ)⌉ :=
  ⟨supply_truncated_toward_zero.1 "[\x7b\"circulating_supply\": 123.9\x7d]"
     [(strL "circulating_supply", Json.num (1239 / 10))] [] (1239 / 10) (by rfl) (by rfl),
   supply_truncated_toward_zero.2.1 "-123.9" (-1239 / 10) (by rfl),
   supply_truncated_toward_zero.2.2.1 (1239 / 10) (by norm_num),
   supply_truncated_toward_zero.2.2.2 (-1239 / 10) (by norm_num)⟩
